import Mathlib

/-!
Verification of the liveask versioned event-record store
(`src/backend/src/eventsdb/`): the attribute codec in `types/mod.rs`, the
error taxonomy in `error.rs`, and the DynamoDB-backed `get`/`put` in
`dynamo.rs`, shallowly embedded in Lean 4.

Rust machine integers are embedded as `Nat` (`usize`) and `Int` (`i64`);
Rust `HashMap<String, AttributeValue>` is embedded as an association list
(the code only ever inserts distinct keys and looks keys up, so insertion
order is immaterial); fallible Rust code returns `Except`, and code that
can additionally panic (indexing a map with `[]`) returns a dedicated
three-valued result type.
-/

namespace LiveAsk

/-- Decimal digit accumulation: consume a list of characters, requiring each
to be an ASCII digit, accumulating the value.  Embeds the core loop of Rust
`str::parse` for unsigned integers (without the 64-bit overflow check, which
no value produced by `to_string` on a machine integer can trigger). -/
def digitsVal : List Char → Nat → Option Nat
  | [], acc => some acc
  | c :: cs, acc =>
    if 48 ≤ c.toNat ∧ c.toNat ≤ 57 then
      digitsVal cs (acc * 10 + (c.toNat - 48))
    else
      none

/-- Embedding of Rust `str::parse::<usize>`: an optional leading `+`
followed by a non-empty sequence of ASCII digits. -/
def rustParseNatList : List Char → Option Nat
  | [] => none
  | c :: rest =>
    if c = '+' then (if rest.isEmpty then none else digitsVal rest 0)
    else digitsVal (c :: rest) 0

def rustParseNat (s : String) : Option Nat :=
  rustParseNatList s.toList

/-- Embedding of Rust `str::parse::<i64>`: like `rustParseNat` but also
accepting a leading `-` sign. -/
def rustParseIntList : List Char → Option Int
  | [] => none
  | c :: rest =>
    if c = '-' then
      (if rest.isEmpty then none
       else (digitsVal rest 0).map (fun n => -(Int.ofNat n)))
    else if c = '+' then
      (if rest.isEmpty then none else (digitsVal rest 0).map Int.ofNat)
    else (digitsVal (c :: rest) 0).map Int.ofNat

def rustParseInt (s : String) : Option Int :=
  rustParseIntList s.toList

/-- The character for a decimal digit. -/
def digitChar (d : Nat) : Char := Char.ofNat (48 + d)

/-- Digit production with explicit fuel (structural, so concrete inputs
evaluate inside the kernel); any fuel above the value produces the same
digits. -/
def natDigitsAux : Nat → Nat → List Char
  | 0, _ => []
  | fuel + 1, n =>
    if n < 10 then [digitChar n]
    else natDigitsAux fuel (n / 10) ++ [digitChar (n % 10)]

/-- The big-endian decimal digits of `n`, as characters.  Embeds the output
of Rust `ToString` on unsigned integers (canonical decimal form). -/
def natDigits (n : Nat) : List Char :=
  natDigitsAux (n + 1) n

/-- Embedding of Rust `usize::to_string`: canonical decimal text. -/
def natToString (n : Nat) : String :=
  String.mk (natDigits n)

/-- Embedding of Rust `i64::to_string`: canonical decimal text with a `-`
sign for negative values. -/
def intToString (t : Int) : String :=
  if t < 0 then String.mk ('-' :: natDigits t.natAbs) else String.mk (natDigits t.natAbs)

/-- Embedding of `aws_sdk_dynamodb::model::AttributeValue` (the variants the
code uses: `S` string, `N` number-as-text, `Bool`, `M` nested map, `L` list). -/
inductive AttributeValue : Type where
  | S : String → AttributeValue
  | N : String → AttributeValue
  | B : Bool → AttributeValue
  | M : List (String × AttributeValue) → AttributeValue
  | L : List AttributeValue → AttributeValue

/-- Embedding of `AttributeMap = HashMap<String, AttributeValue>`
(`types/mod.rs` line 68), as an association list: the code only inserts
distinct keys and looks keys up, so this observationally matches the hash map. -/
def AttributeMap : Type := List (String × AttributeValue)

/-- Embedding of `HashMap::get` (and of the `map[key]` lookup underlying
Rust's panicking `Index`): `none` when the key is absent. -/
def AttributeMap.find : AttributeMap → String → Option AttributeValue
  | [], _ => none
  | (k, v) :: rest, key => if k = key then some v else AttributeMap.find rest key

/-- `HashMap::contains_key`. -/
def AttributeMap.containsKey (m : AttributeMap) (key : String) : Bool :=
  (m.find key).isSome

/-- Remove every binding of `key` (used only in theorem statements, to speak
about a stored item whose field was dropped). -/
def AttributeMap.removeKey (m : AttributeMap) (key : String) : AttributeMap :=
  List.filter (fun kv => kv.1 ≠ key) m

/-- Embedding of `AttributeValue::as_n` (`Ok` on the `N` variant, `Err`
otherwise, embedded as `Option`). -/
def AttributeValue.as_n : AttributeValue → Option String
  | .N s => some s
  | _ => none

/-- Embedding of `AttributeValue::as_s`. -/
def AttributeValue.as_s : AttributeValue → Option String
  | .S s => some s
  | _ => none

/-- Embedding of `AttributeValue::as_m`. -/
def AttributeValue.as_m : AttributeValue → Option AttributeMap
  | .M m => some m
  | _ => none

/-- Embedding of `shared::EventTokens` (field shape as exercised by the
serialization tests in `types/mod.rs`: required public token, optional
moderator token). -/
structure EventTokens where
  public_token : String
  moderator_token : Option String
deriving DecidableEq

/-- Embedding of `shared::EventData` (fields as exercised by the
serialization tests in `types/mod.rs`). -/
structure EventData where
  name : String
  description : String
  short_url : String
  long_url : Option String
  mail : Option String
deriving DecidableEq

/-- Embedding of `shared::QuestionItem` (fields as exercised by the
serialization tests in `types/mod.rs`); numeric fields as `Int`. -/
structure QuestionItem where
  id : Int
  likes : Int
  text : String
  hidden : Bool
  answered : Bool
  create_time_unix : Int
deriving DecidableEq

/-- Modelled from the spec: the lifecycle-state enumeration `shared::States`
(its definition is not under `src/`; the tests use `States::Closed` and the
business-rule semantics are declared out of scope, so only the carrier
matters here). -/
inductive States : Type where
  | open_ : States
  | votingOnly : States
  | closed : States
deriving DecidableEq

/-- Embedding of `shared::EventState` (a wrapper holding a `States` value,
as exercised by the serialization tests in `types/mod.rs`). -/
structure EventState where
  state : States
deriving DecidableEq

/-- Embedding of `ApiEventInfo` (`types/mod.rs` lines 14-28). -/
structure ApiEventInfo where
  tokens : EventTokens
  data : EventData
  create_time_unix : Int
  delete_time_unix : Int
  deleted : Bool
  last_edit_unix : Int
  questions : List QuestionItem
  state : EventState
  premium_order : Option String
deriving DecidableEq

/-- Embedding of `shared::EventInfo` (field shape shown by
`From<ApiEventInfo> for EventInfo` in `types/mod.rs` lines 30-44: same as
`ApiEventInfo` but with a `premium : bool` flag instead of the order id). -/
structure EventInfo where
  tokens : EventTokens
  data : EventData
  create_time_unix : Int
  delete_time_unix : Int
  deleted : Bool
  last_edit_unix : Int
  questions : List QuestionItem
  state : EventState
  premium : Bool
deriving DecidableEq

/-- Embedding of `From<ApiEventInfo> for EventInfo` (`types/mod.rs` 30-44). -/
def ApiEventInfo.toEventInfo (val : ApiEventInfo) : EventInfo :=
  { tokens := val.tokens
    data := val.data
    create_time_unix := val.create_time_unix
    delete_time_unix := val.delete_time_unix
    deleted := val.deleted
    last_edit_unix := val.last_edit_unix
    questions := val.questions
    state := val.state
    premium := val.premium_order.isSome }

/-- Embedding of `EventEntry` (`types/mod.rs` lines 46-51): the versioned
record (`version : usize` as `Nat`, `ttl : Option<i64>` as `Option Int`). -/
structure EventEntry where
  event : ApiEventInfo
  version : Nat
  ttl : Option Int
deriving DecidableEq

/-- Embedding of `EventEntry::new` (`types/mod.rs` 54-60): version starts
at 0. -/
def EventEntry.new (event : ApiEventInfo) (ttl : Option Int) : EventEntry :=
  { event := event, version := 0, ttl := ttl }

/-- Embedding of `EventEntry::bump` (`types/mod.rs` 62-65).  The Rust code
reads the clock via `timestamp_now()`; the clock value is passed explicitly
as `now`. -/
def EventEntry.bump (now : Int) (e : EventEntry) : EventEntry :=
  { e with
    version := e.version + 1
    event := { e.event with last_edit_unix := now } }

/-- `CURRENT_FORMAT` (`types/mod.rs` line 70). -/
def CURRENT_FORMAT : Nat := 1

/-- Modelled from the spec: `event_key` (defined in `eventsdb/mod.rs`,
which is not under `src/`) — "derived as a deterministic, namespaced
transformation of the public token (a fixed literal prefix concatenated
with the token)".  The literal itself is not shown in `src/`; no claim
depends on its exact value. -/
def event_key (token : String) : String :=
  "events/" ++ token

/-- Embedding of `aws_sdk_dynamodb::error::PutItemErrorKind`: the code only
discriminates the `ConditionalCheckFailedException` variant, so every other
variant of the Rust enum is represented by `otherKind` with its name. -/
inductive PutItemErrorKind : Type where
  | conditionalCheckFailedException : String → PutItemErrorKind
  | otherKind : String → PutItemErrorKind
deriving DecidableEq

/-- Embedding of `aws_sdk_dynamodb::error::PutItemError` (the `kind` field
is all the code inspects). -/
structure PutItemError where
  kind : PutItemErrorKind
deriving DecidableEq

/-- Embedding of `SdkError<PutItemError>` (aws-sdk 0.x variants:
`ConstructionFailure`, `TimeoutError`, `DispatchFailure`, `ResponseError`,
`ServiceError { err, raw }`); payloads other than the service error's `err`
are represented by opaque description strings. -/
inductive SdkPutError : Type where
  | ConstructionFailure : String → SdkPutError
  | TimeoutError : String → SdkPutError
  | DispatchFailure : String → SdkPutError
  | ResponseError : String → SdkPutError
  | ServiceError : PutItemError → String → SdkPutError
deriving DecidableEq

/-- Embedding of `SdkError<GetItemError>`; the code never discriminates its
variants (it is only wrapped whole), so it is a single-constructor carrier. -/
structure SdkGetError where
  description : String
deriving DecidableEq

/-- Embedding of `eventsdb::error::Error` (`error.rs` lines 9-37).
Foreign payloads: `serde_json::Error` and `ParseIntError` carry no data the
code inspects, so they are embedded as a message string and a unit.
`MalformedObject` is referenced by `types/mod.rs` (line 83); its variant
declaration lives in the revision of `error.rs` that matches `types/mod.rs`
and is included here so that file's code is representable. -/
inductive Error : Type where
  | General : String → Error
  | Concurrency : Error
  | ItemNotFound : Error
  | Serde : String → Error
  | ParseInt : Error
  | DynamoPut : SdkPutError → Error
  | DynamoListTables : String → Error
  | DynamoCreateTable : String → Error
  | DynamoGetItemError : SdkGetError → Error
  | MalformedObject : String → Error
deriving DecidableEq

/-- Result of running a piece of Rust code that can panic (indexing a
`HashMap` with a missing key) in addition to returning `Result`:
`panics` is the panic, `fails e` is `Err(e)`, `ok a` is `Ok(a)`. -/
inductive RunResult (α : Type) : Type where
  | panics : RunResult α
  | fails : Error → RunResult α
  | ok : α → RunResult α
deriving DecidableEq

/-- Modelled from the spec: numeric encoding of `States` for the wire
("number (decimal-as-string serialization)" is the only numeric shape the
attribute representation offers). -/
def States.toNat : States → Nat
  | .open_ => 0
  | .votingOnly => 1
  | .closed => 2

/-- Modelled from the spec: inverse of `States.toNat`, rejecting unknown
discriminants. -/
def States.fromNat : Nat → Option States
  | 0 => some .open_
  | 1 => some .votingOnly
  | 2 => some .closed
  | _ => none

/-- Modelled from the spec: encoding of `EventTokens` by
`conversion::event_to_attributes` (module `conversion` is declared in
`types/mod.rs` but its file is not under `src/`).  "Every domain field maps
to exactly one named entry ...; optional fields are omitted entirely when
absent." -/
def tokensToAttributes (t : EventTokens) : AttributeMap :=
  [("public_token", AttributeValue.S t.public_token)] ++
    (match t.moderator_token with
      | some m => [("moderator_token", AttributeValue.S m)]
      | none => [])

/-- Modelled from the spec: decoding of `EventTokens`, "with explicit
per-field error propagation ... so that malformed-field errors name the
offending field"; an absent optional field decodes to `none`. -/
def tokensFromAttributes (m : AttributeMap) : Except Error EventTokens :=
  match m.find "public_token" with
  | some (AttributeValue.S pt) =>
    match m.find "moderator_token" with
    | none => Except.ok { public_token := pt, moderator_token := none }
    | some (AttributeValue.S mt) =>
      Except.ok { public_token := pt, moderator_token := some mt }
    | some _ => Except.error (Error.MalformedObject "moderator_token")
  | _ => Except.error (Error.MalformedObject "public_token")

/-- Modelled from the spec: encoding of `EventData` (required strings,
optional strings omitted when absent). -/
def dataToAttributes (d : EventData) : AttributeMap :=
  [("name", AttributeValue.S d.name),
   ("description", AttributeValue.S d.description),
   ("short_url", AttributeValue.S d.short_url)] ++
    (match d.long_url with
      | some u => [("long_url", AttributeValue.S u)]
      | none => []) ++
    (match d.mail with
      | some u => [("mail", AttributeValue.S u)]
      | none => [])

/-- Modelled from the spec: decoding of `EventData`. -/
def dataFromAttributes (m : AttributeMap) : Except Error EventData :=
  match m.find "name" with
  | some (AttributeValue.S name) =>
    match m.find "description" with
    | some (AttributeValue.S description) =>
      match m.find "short_url" with
      | some (AttributeValue.S short_url) =>
        match m.find "long_url", m.find "mail" with
        | none, none =>
          Except.ok ⟨name, description, short_url, none, none⟩
        | none, some (AttributeValue.S mail) =>
          Except.ok ⟨name, description, short_url, none, some mail⟩
        | some (AttributeValue.S long_url), none =>
          Except.ok ⟨name, description, short_url, some long_url, none⟩
        | some (AttributeValue.S long_url), some (AttributeValue.S mail) =>
          Except.ok ⟨name, description, short_url, some long_url, some mail⟩
        | some _, _ => Except.error (Error.MalformedObject "long_url")
        | _, some _ => Except.error (Error.MalformedObject "mail")
      | _ => Except.error (Error.MalformedObject "short_url")
    | _ => Except.error (Error.MalformedObject "description")
  | _ => Except.error (Error.MalformedObject "name")

/-- Modelled from the spec: encoding of one `QuestionItem` ("each question
item map[s] to [a] nested sub-mapping"; numbers as decimal text). -/
def questionToAttributes (q : QuestionItem) : AttributeMap :=
  [("id", AttributeValue.N (intToString q.id)),
   ("likes", AttributeValue.N (intToString q.likes)),
   ("text", AttributeValue.S q.text),
   ("hidden", AttributeValue.B q.hidden),
   ("answered", AttributeValue.B q.answered),
   ("create_time_unix", AttributeValue.N (intToString q.create_time_unix))]

/-- Modelled from the spec: decoding of one `QuestionItem`, numbers "parsed
back with a failure raised as a malformed-field error". -/
def questionFromAttributes (m : AttributeMap) : Except Error QuestionItem :=
  match (m.find "id").bind AttributeValue.as_n |>.bind rustParseInt with
  | none => Except.error (Error.MalformedObject "id")
  | some id =>
    match (m.find "likes").bind AttributeValue.as_n |>.bind rustParseInt with
    | none => Except.error (Error.MalformedObject "likes")
    | some likes =>
      match (m.find "text").bind AttributeValue.as_s with
      | none => Except.error (Error.MalformedObject "text")
      | some text =>
        match m.find "hidden" with
        | some (AttributeValue.B hidden) =>
          match m.find "answered" with
          | some (AttributeValue.B answered) =>
            match (m.find "create_time_unix").bind AttributeValue.as_n
                |>.bind rustParseInt with
            | none => Except.error (Error.MalformedObject "create_time_unix")
            | some ct =>
              Except.ok ⟨id, likes, text, hidden, answered, ct⟩
          | _ => Except.error (Error.MalformedObject "answered")
        | _ => Except.error (Error.MalformedObject "hidden")

/-- Modelled from the spec: encoding of `EventState` ("nested structures
(tokens, data, each question item, state) map to nested sub-mappings"). -/
def stateToAttributes (s : EventState) : AttributeMap :=
  [("state", AttributeValue.N (natToString s.state.toNat))]

/-- Modelled from the spec: decoding of `EventState`. -/
def stateFromAttributes (m : AttributeMap) : Except Error EventState :=
  match (m.find "state").bind AttributeValue.as_n |>.bind rustParseNat
      |>.bind States.fromNat with
  | none => Except.error (Error.MalformedObject "state")
  | some st => Except.ok ⟨st⟩

/-- Modelled from the spec: `conversion::event_to_attributes`
(`ApiEventInfo → AttributeMap`): one named entry per domain field, nested
sub-mappings for nested structures, an ordered list for the question list,
numbers as decimal text, optional fields omitted when absent; field names
per the spec's persisted-record shape (`tokens`, `data`, `questions`,
`state`, `createTimeUnix`, `deleteTimeUnix`, `deleted`, `lastEditUnix`,
`premium_order`). -/
def event_to_attributes (e : ApiEventInfo) : AttributeMap :=
  [("tokens", AttributeValue.M (tokensToAttributes e.tokens)),
   ("data", AttributeValue.M (dataToAttributes e.data)),
   ("createTimeUnix", AttributeValue.N (intToString e.create_time_unix)),
   ("deleteTimeUnix", AttributeValue.N (intToString e.delete_time_unix)),
   ("deleted", AttributeValue.B e.deleted),
   ("lastEditUnix", AttributeValue.N (intToString e.last_edit_unix)),
   ("questions",
     AttributeValue.L (e.questions.map (fun q => AttributeValue.M (questionToAttributes q)))),
   ("state", AttributeValue.M (stateToAttributes e.state))] ++
    (match e.premium_order with
      | some p => [("premium_order", AttributeValue.S p)]
      | none => [])

/-- Modelled from the spec: decoding of the question list (an ordered list
of sub-mappings, each decoded with per-field error propagation). -/
def questionsFromAttributes : List AttributeValue → Except Error (List QuestionItem)
  | [] => Except.ok []
  | av :: rest =>
    match av with
    | AttributeValue.M m =>
      match questionFromAttributes m with
      | Except.error e => Except.error e
      | Except.ok q =>
        match questionsFromAttributes rest with
        | Except.error e => Except.error e
        | Except.ok qs => Except.ok (q :: qs)
    | _ => Except.error (Error.MalformedObject "questions")

/-- Modelled from the spec: `conversion::attributes_to_event`
(`AttributeMap → Result<ApiEventInfo>`), inverse of `event_to_attributes`
with explicit per-field error propagation naming the offending field. -/
def attributes_to_event (m : AttributeMap) : Except Error ApiEventInfo :=
  match (m.find "tokens").bind AttributeValue.as_m with
  | none => Except.error (Error.MalformedObject "tokens")
  | some tm =>
    match tokensFromAttributes tm with
    | Except.error e => Except.error e
    | Except.ok tokens =>
      match (m.find "data").bind AttributeValue.as_m with
      | none => Except.error (Error.MalformedObject "data")
      | some dm =>
        match dataFromAttributes dm with
        | Except.error e => Except.error e
        | Except.ok data =>
          match (m.find "createTimeUnix").bind AttributeValue.as_n
              |>.bind rustParseInt with
          | none => Except.error (Error.MalformedObject "createTimeUnix")
          | some create_time_unix =>
            match (m.find "deleteTimeUnix").bind AttributeValue.as_n
                |>.bind rustParseInt with
            | none => Except.error (Error.MalformedObject "deleteTimeUnix")
            | some delete_time_unix =>
              match m.find "deleted" with
              | some (AttributeValue.B deleted) =>
                match (m.find "lastEditUnix").bind AttributeValue.as_n
                    |>.bind rustParseInt with
                | none => Except.error (Error.MalformedObject "lastEditUnix")
                | some last_edit_unix =>
                  match m.find "questions" with
                  | some (AttributeValue.L qs) =>
                    match questionsFromAttributes qs with
                    | Except.error e => Except.error e
                    | Except.ok questions =>
                      match (m.find "state").bind AttributeValue.as_m with
                      | none => Except.error (Error.MalformedObject "state")
                      | some sm =>
                        match stateFromAttributes sm with
                        | Except.error e => Except.error e
                        | Except.ok state =>
                          match m.find "premium_order" with
                          | none =>
                            Except.ok
                              ⟨tokens, data, create_time_unix, delete_time_unix,
                               deleted, last_edit_unix, questions, state, none⟩
                          | some (AttributeValue.S p) =>
                            Except.ok
                              ⟨tokens, data, create_time_unix, delete_time_unix,
                               deleted, last_edit_unix, questions, state, some p⟩
                          | some _ =>
                            Except.error (Error.MalformedObject "premium_order")
                  | _ => Except.error (Error.MalformedObject "questions")
              | _ => Except.error (Error.MalformedObject "deleted")

/-- Embedding of `From<EventEntry> for AttributeMap` (`types/mod.rs`
lines 100-121): inserts `key`, `format`, `v`, `event`, and `ttl` only when
present.  The Rust `HashMap` insertion order is immaterial; the association
list lists the four unconditional insertions and appends the conditional
one, exactly as the source performs them. -/
def eventEntryToAttributeMap (value : EventEntry) : AttributeMap :=
  [("key", AttributeValue.S (event_key value.event.tokens.public_token)),
   ("format", AttributeValue.N (natToString CURRENT_FORMAT)),
   ("v", AttributeValue.N (natToString value.version)),
   ("event", AttributeValue.M (event_to_attributes value.event))] ++
    (match value.ttl with
      | some ttl => [("ttl", AttributeValue.N (intToString ttl))]
      | none => [])

/-- Embedding of `TryFrom<&AttributeMap> for EventEntry` (`types/mod.rs`
lines 72-98).  The Rust code indexes `value["v"]` and `value["event"]`
with the panicking `Index`, hence `RunResult.panics` when either key is
absent; `as_n` failure yields `General`, `parse::<usize>` failure yields
`ParseInt` (via `#[from] ParseIntError`), a non-map `event` yields
`MalformedObject`, and the `ttl` chain converts every failure into `None`
via `.ok()`/`and_then`. -/
def eventEntryTryFromAttributeMap (value : AttributeMap) : RunResult EventEntry :=
  match value.find "v" with
  | none => RunResult.panics
  | some vav =>
    match vav.as_n with
    | none => RunResult.fails (Error.General "malformed event: `v`")
    | some vs =>
      match rustParseNat vs with
      | none => RunResult.fails Error.ParseInt
      | some version =>
        match value.find "event" with
        | none => RunResult.panics
        | some eav =>
          match eav.as_m with
          | none => RunResult.fails (Error.MalformedObject "event")
          | some em =>
            let ttl := ((value.find "ttl").bind AttributeValue.as_n).bind rustParseInt
            match attributes_to_event em with
            | Except.error e => RunResult.fails e
            | Except.ok event =>
              RunResult.ok { event := event, version := version, ttl := ttl }

/-- Embedding of the `EventEntry` struct literal built by
`DynamoEventsDB::get` (`dynamo.rs` line 53): that revision's entry holds a
`shared::EventInfo` payload and a version, and no `ttl` field. -/
structure DynamoEventEntry where
  event : EventInfo
  version : Nat
deriving DecidableEq

/-- Embedding of the put-item request assembled by `DynamoEventsDB::put`
(`dynamo.rs` lines 62-75): the item map plus the optional condition
expression and its substituted attribute values. -/
structure PutRequest where
  item : AttributeMap
  condition_expression : Option String
  expression_attribute_values : AttributeMap

/-- Embedding of the request-building part of `DynamoEventsDB::put`
(`dynamo.rs` lines 57-75).  `toJson` stands for the external collaborator
`serde_json::to_string` on `EventInfo` (serialization of this struct cannot
fail, so its embedding is total).  Items `key`, `v`, `value` are set; when
`event.version > 0` the condition `v = :ver` with
`:ver = N((version - 1).to_string())` is attached (`saturating_sub(1)` on a
positive `usize` is plain subtraction, and on `0` yields `0`, but the guard
is only attached when `version > 0`). -/
def buildPutRequest (toJson : EventInfo → String) (event : DynamoEventEntry) :
    PutRequest :=
  let base : AttributeMap :=
    [("key", AttributeValue.S (event_key event.event.tokens.public_token)),
     ("v", AttributeValue.N (natToString event.version)),
     ("value", AttributeValue.S (toJson event.event))]
  if event.version > 0 then
    { item := base
      condition_expression := some "v = :ver"
      expression_attribute_values :=
        [(":ver", AttributeValue.N (natToString (event.version - 1)))] }
  else
    { item := base, condition_expression := none, expression_attribute_values := [] }

/-- Embedding of the error filtering in `DynamoEventsDB::put`
(`dynamo.rs` lines 77-88): a `ServiceError` whose kind is
`ConditionalCheckFailedException` becomes `Error::Concurrency`; every other
`SdkError<PutItemError>` is wrapped whole as `Error::DynamoPut`. -/
def filterPutError (e : SdkPutError) : Error :=
  match e with
  | SdkPutError.ServiceError err _ =>
    match err.kind with
    | PutItemErrorKind.conditionalCheckFailedException _ => Error.Concurrency
    | PutItemErrorKind.otherKind _ => Error.DynamoPut e
  | _ => Error.DynamoPut e

/-- The discriminating predicate of the claim: is this underlying failure a
conditional-check-failed rejection?  (Mirrors the `matches!` pattern in
`dynamo.rs` lines 79-83.) -/
def SdkPutError.isConditionalCheckFailed : SdkPutError → Bool
  | SdkPutError.ServiceError err _ =>
    match err.kind with
    | PutItemErrorKind.conditionalCheckFailedException _ => true
    | PutItemErrorKind.otherKind _ => false
  | _ => false

/-- Modelled from the spec: DynamoDB's atomic conditional single-item put
("a document/key-value store with conditional single-item writes ...
atomic single-item conditional puts").  The single-key store state is the
stored item, if any.  An unconditional request replaces the item.  A
request carrying the condition `v = :ver` succeeds and replaces the item
exactly when an item is stored and its `v` attribute equals the
substituted `:ver` value (scalar attribute equality); otherwise the store
rejects it with `ConditionalCheckFailedException` and the state is
unchanged. -/
def dynamoConditionalPut (state : Option AttributeMap) (req : PutRequest) :
    Option SdkPutError × Option AttributeMap :=
  match req.condition_expression with
  | none => (none, some req.item)
  | some _ =>
    let passes :=
      match state, AttributeMap.find req.expression_attribute_values ":ver" with
      | some item, some (AttributeValue.N expected) =>
        match item.find "v" with
        | some (AttributeValue.N actual) => actual == expected
        | _ => false
      | _, _ => false
    if passes then (none, some req.item)
    else
      (some (SdkPutError.ServiceError
              ⟨PutItemErrorKind.conditionalCheckFailedException
                "ConditionalCheckFailedException"⟩
              "service error"),
       state)

/-- Embedding of `DynamoEventsDB::put` (`dynamo.rs` lines 56-91) run
against the modelled store: build the request, submit it, filter the error.
Returns the call's result together with the store state after the call. -/
def putOp (toJson : EventInfo → String) (state : Option AttributeMap)
    (event : DynamoEventEntry) : Except Error Unit × Option AttributeMap :=
  let req := buildPutRequest toJson event
  match dynamoConditionalPut state req with
  | (none, state') => (Except.ok (), state')
  | (some e, state') => (Except.error (filterPutError e), state')

/-- The version number recorded in a stored item, read back the way the code
reads it (`item["v"].as_n()?.parse::<usize>()`): `none` when no item is
stored or its `v` attribute is absent, non-numeric, or unparsable. -/
def storedVersion (state : Option AttributeMap) : Option Nat :=
  match state with
  | none => none
  | some item => ((item.find "v").bind AttributeValue.as_n).bind rustParseNat

/-- Embedding of `aws_sdk_dynamodb` `GetItemOutput` (the `item()` accessor
is all the code uses). -/
structure GetItemOutput where
  item : Option AttributeMap

/-- Embedding of `DynamoEventsDB::get` (`dynamo.rs` lines 29-54), as a
function of the transport's response (`resp` is the result of
`get_item ... send().await`).  `fromJson` stands for the external
collaborator `serde_json::from_str::<EventInfo>`, whose failure message is
wrapped by `#[from]` into `Error::Serde`.  A transport error propagates via
`?` as `DynamoGetItemError`; a missing item yields `ItemNotFound`;
`item["v"]` and `item["value"]` are panicking indexes; `as_n`/`as_s`
failures yield `General` errors naming the field; `parse::<usize>` failure
yields `ParseInt`. -/
def dynamoGet (fromJson : String → Except String EventInfo)
    (resp : Except SdkGetError GetItemOutput) : RunResult DynamoEventEntry :=
  match resp with
  | Except.error e => RunResult.fails (Error.DynamoGetItemError e)
  | Except.ok res =>
    match res.item with
    | none => RunResult.fails Error.ItemNotFound
    | some item =>
      match item.find "v" with
      | none => RunResult.panics
      | some vav =>
        match vav.as_n with
        | none => RunResult.fails (Error.General "malformed event: v")
        | some vs =>
          match rustParseNat vs with
          | none => RunResult.fails Error.ParseInt
          | some version =>
            match item.find "value" with
            | none => RunResult.panics
            | some sav =>
              match sav.as_s with
              | none => RunResult.fails (Error.General "malformed event: value")
              | some s =>
                match fromJson s with
                | Except.error e => RunResult.fails (Error.Serde e)
                | Except.ok event =>
                  RunResult.ok { event := event, version := version }

/-- The question item used by the serialization tests in `types/mod.rs`. -/
def testQuestion : QuestionItem :=
  { id := 0, likes := 2, text := "q", hidden := false, answered := true,
    create_time_unix := 3 }

/-- The event of `test_ser_and_de_1` in `types/mod.rs` (optional
`moderator_token`, `long_url`, `mail` all absent). -/
def testEvent1 : ApiEventInfo :=
  { tokens := { public_token := "token1", moderator_token := none }
    data := { name := "name", description := "desc", short_url := "",
              long_url := none, mail := none }
    create_time_unix := 1
    delete_time_unix := 0
    deleted := false
    last_edit_unix := 2
    questions := [testQuestion]
    state := { state := States.closed }
    premium_order := some "order" }

/-- The entry of `test_ser_and_de_1` in `types/mod.rs`. -/
def testEntry1 : EventEntry := { event := testEvent1, version := 2, ttl := none }

/-- The event of `test_ser_and_de_2` in `types/mod.rs` (every optional
field present). -/
def testEvent2 : ApiEventInfo :=
  { tokens := { public_token := "token1", moderator_token := some "token2" }
    data := { name := "name", description := "desc", short_url := "",
              long_url := some "foo", mail := some "mail" }
    create_time_unix := 1
    delete_time_unix := 0
    deleted := false
    last_edit_unix := 2
    questions := [testQuestion]
    state := { state := States.closed }
    premium_order := some "order" }

/-- The entry of `test_ser_and_de_2` in `types/mod.rs`. -/
def testEntry2 : EventEntry := { event := testEvent2, version := 2, ttl := some 12345 }

/-- A version-0 entry for exercising `put`. -/
def dynamoTestEntry0 : DynamoEventEntry :=
  { event := testEvent1.toEventInfo, version := 0 }

/-- A single-key store state is well formed when the stored item, if any,
records its version canonically (`v` is the decimal text the code itself
writes).  Every state reachable by the code's own writes is of this form. -/
def WellFormedState (s : Option AttributeMap) : Prop :=
  ∀ item, s = some item →
    ∃ n, item.find "v" = some (AttributeValue.N (natToString n))

deriving instance DecidableEq for Except

theorem toList_mk (l : List Char) : (String.mk l).toList = l := rfl

theorem digitsVal_append (l₁ l₂ : List Char) (acc : Nat) :
    digitsVal (l₁ ++ l₂) acc = (digitsVal l₁ acc).bind (fun v => digitsVal l₂ v) := by
  induction l₁ generalizing acc with
  | nil => rfl
  | cons c cs ih =>
    simp only [List.cons_append, digitsVal]
    split
    · exact ih _
    · rfl

theorem char_ofNat_digit_toNat (d : Nat) (h : d < 10) :
    (digitChar d).toNat = 48 + d := by
  interval_cases d <;> decide

theorem natDigitsAux_fuel (n : Nat) :
    ∀ f₁ f₂, n < f₁ → n < f₂ → natDigitsAux f₁ n = natDigitsAux f₂ n := by
  induction n using Nat.strong_induction_on with
  | _ n ih =>
    intro f₁ f₂ h₁ h₂
    match f₁, f₂ with
    | g₁ + 1, g₂ + 1 =>
      simp only [natDigitsAux]
      by_cases h : n < 10
      · simp [h]
      · rw [if_neg h, if_neg h]
        have hrec : n / 10 < n := Nat.div_lt_self (by omega) (by omega)
        rw [ih (n / 10) hrec g₁ g₂ (by omega) (by omega)]

theorem natDigits_step (n : Nat) :
    natDigits n =
      if n < 10 then [digitChar n]
      else natDigits (n / 10) ++ [digitChar (n % 10)] := by
  by_cases h : n < 10
  · rw [if_pos h]
    show natDigitsAux (n + 1) n = [digitChar n]
    simp only [natDigitsAux, if_pos h]
  · rw [if_neg h]
    show natDigitsAux (n + 1) n = natDigits (n / 10) ++ [digitChar (n % 10)]
    have h1 : natDigitsAux (n + 1) n =
        natDigitsAux n (n / 10) ++ [digitChar (n % 10)] := by
      simp only [natDigitsAux, if_neg h]
    rw [h1]
    show natDigitsAux n (n / 10) ++ _ = natDigitsAux (n / 10 + 1) (n / 10) ++ _
    rw [natDigitsAux_fuel (n / 10) n (n / 10 + 1) (by omega) (by omega)]

theorem digitsVal_natDigits (n : Nat) :
    ∀ acc, digitsVal (natDigits n) acc = some (acc * 10 ^ (natDigits n).length + n) := by
  induction n using Nat.strong_induction_on with
  | _ n ih =>
    intro acc
    by_cases h : n < 10
    · rw [natDigits_step, if_pos h]
      simp only [digitsVal, List.length_cons, List.length_nil,
        char_ofNat_digit_toNat n h]
      have hc : 48 ≤ 48 + n ∧ 48 + n ≤ 57 := by omega
      rw [if_pos hc]
      simp only [zero_add, pow_one]
      congr 1
      omega
    · rw [natDigits_step, if_neg h]
      rw [digitsVal_append]
      rw [ih (n / 10) (Nat.div_lt_self (by omega) (by omega)) acc]
      have hd : n % 10 < 10 := Nat.mod_lt _ (by omega)
      simp only [Option.bind, digitsVal, char_ofNat_digit_toNat _ hd]
      have hc : 48 ≤ 48 + n % 10 ∧ 48 + n % 10 ≤ 57 := by omega
      rw [if_pos hc]
      simp only [digitsVal, List.length_append, List.length_cons, List.length_nil]
      congr 1
      have hK :
          (acc * 10 ^ (natDigits (n / 10)).length + n / 10) * 10 + (48 + n % 10 - 48) =
            acc * (10 ^ (natDigits (n / 10)).length * 10) +
              (10 * (n / 10) + n % 10) := by
        have : 48 + n % 10 - 48 = n % 10 := by omega
        rw [this]; ring
      rw [hK, Nat.div_add_mod, pow_succ]

theorem natDigits_head (n : Nat) :
    ∃ c cs, natDigits n = c :: cs ∧ 48 ≤ c.toNat ∧ c.toNat ≤ 57 := by
  induction n using Nat.strong_induction_on with
  | _ n ih =>
    by_cases h : n < 10
    · refine ⟨digitChar n, [], ?_, ?_, ?_⟩
      · rw [natDigits_step]; simp [h]
      · rw [char_ofNat_digit_toNat n h]; omega
      · rw [char_ofNat_digit_toNat n h]; omega
    · obtain ⟨c, cs, hcons, h48, h57⟩ :=
        ih (n / 10) (Nat.div_lt_self (by omega) (by omega))
      refine ⟨c, cs ++ [digitChar (n % 10)], ?_, h48, h57⟩
      rw [natDigits_step]
      simp [h, hcons]

theorem rustParseNat_natToString (n : Nat) : rustParseNat (natToString n) = some n := by
  obtain ⟨c, cs, hcons, h48, h57⟩ := natDigits_head n
  have hplus : ¬(c = '+') := by
    intro hc; subst hc; revert h48; decide
  unfold rustParseNat natToString
  rw [toList_mk, hcons]
  simp only [rustParseNatList, if_neg hplus]
  rw [← hcons]
  have := digitsVal_natDigits n 0
  simpa using this

theorem rustParseInt_intToString (t : Int) : rustParseInt (intToString t) = some t := by
  by_cases ht : t < 0
  · obtain ⟨c, cs, hcons, h48, h57⟩ := natDigits_head t.natAbs
    unfold rustParseInt intToString
    rw [if_pos ht, toList_mk]
    simp only [rustParseIntList, if_pos rfl, hcons, List.isEmpty_cons]
    rw [← hcons]
    have hv := digitsVal_natDigits t.natAbs 0
    simp only [zero_mul, zero_add] at hv
    simp only [Bool.false_eq_true, if_false, hv, Option.map]
    rw [if_pos trivial]
    congr 1
    simp only [Int.ofNat_eq_natCast]
    omega
  · obtain ⟨c, cs, hcons, h48, h57⟩ := natDigits_head t.natAbs
    have hminus : ¬(c = '-') := by
      intro hc; subst hc; revert h48; decide
    have hplus : ¬(c = '+') := by
      intro hc; subst hc; revert h48; decide
    unfold rustParseInt intToString
    rw [if_neg ht, toList_mk, hcons]
    simp only [rustParseIntList, if_neg hminus, if_neg hplus]
    rw [← hcons]
    have hv := digitsVal_natDigits t.natAbs 0
    simp only [zero_mul, zero_add] at hv
    rw [hv]
    simp only [Option.map]
    congr 1
    simp only [Int.ofNat_eq_natCast]
    omega

theorem natToString_inj {a b : Nat} (h : natToString a = natToString b) : a = b := by
  have ha := rustParseNat_natToString a
  have hb := rustParseNat_natToString b
  rw [h, hb] at ha
  exact (Option.some.injEq _ _).mp ha.symm

theorem tokens_roundtrip (t : EventTokens) :
    tokensFromAttributes (tokensToAttributes t) = Except.ok t := by
  cases t with
  | mk pt mt =>
    cases mt <;>
      simp [tokensToAttributes, tokensFromAttributes, AttributeMap.find]

theorem data_roundtrip (d : EventData) :
    dataFromAttributes (dataToAttributes d) = Except.ok d := by
  cases d with
  | mk nm ds su lu ml =>
    cases lu <;> cases ml <;>
      simp [dataToAttributes, dataFromAttributes, AttributeMap.find]

theorem question_roundtrip (q : QuestionItem) :
    questionFromAttributes (questionToAttributes q) = Except.ok q := by
  cases q with
  | mk id likes text hidden answered ct =>
    simp [questionToAttributes, questionFromAttributes, AttributeMap.find,
      AttributeValue.as_n, AttributeValue.as_s, rustParseInt_intToString]

theorem questions_roundtrip (qs : List QuestionItem) :
    questionsFromAttributes
      (qs.map (fun q => AttributeValue.M (questionToAttributes q))) = Except.ok qs := by
  induction qs with
  | nil => rfl
  | cons q rest ih =>
    simp [questionsFromAttributes, question_roundtrip, ih]

theorem states_roundtrip (s : States) : States.fromNat s.toNat = some s := by
  cases s <;> rfl

theorem state_roundtrip (s : EventState) :
    stateFromAttributes (stateToAttributes s) = Except.ok s := by
  cases s with
  | mk st =>
    simp [stateToAttributes, stateFromAttributes, AttributeMap.find,
      AttributeValue.as_n, rustParseNat_natToString, states_roundtrip]

theorem event_roundtrip (e : ApiEventInfo) :
    attributes_to_event (event_to_attributes e) = Except.ok e := by
  cases e with
  | mk tokens data ct dt del le qs st po =>
    cases po <;>
      simp [event_to_attributes, attributes_to_event, AttributeMap.find,
        AttributeValue.as_n, AttributeValue.as_m, AttributeValue.as_s,
        tokens_roundtrip, data_roundtrip, questions_roundtrip, state_roundtrip,
        rustParseInt_intToString]

/-- C3: for every versioned record — in particular with every optional field
absent or every optional field present — decoding the attribute map produced
by encoding it yields exactly the record; an absent `moderator_token`
decodes back to `none` (the round-trip law `decode(encode(x)) = ok x`). -/
theorem claim_C3_roundtrip (x : EventEntry) :
    eventEntryTryFromAttributeMap (eventEntryToAttributeMap x) = RunResult.ok x := by
  cases x with
  | mk ev v ttl =>
    cases ttl <;>
      simp [eventEntryToAttributeMap, eventEntryTryFromAttributeMap, AttributeMap.find,
        AttributeValue.as_n, AttributeValue.as_m, rustParseNat_natToString,
        rustParseInt_intToString, event_roundtrip]

theorem bump_foldl_version (nows : List Int) :
    ∀ e : EventEntry,
      (nows.foldl (fun e now => EventEntry.bump now e) e).version =
        e.version + nows.length := by
  induction nows with
  | nil => intro e; simp
  | cons n rest ih =>
    intro e
    rw [List.foldl_cons, ih]
    show e.version + 1 + rest.length = e.version + (rest.length + 1)
    omega

/-- C9: a freshly constructed entry has version 0 regardless of the
arguments, each `bump` increments the version by exactly 1, and after a
sequence of `n` bumps from a new entry (at arbitrary clock readings) the
version equals `n`. -/
theorem claim_C9_new_version_zero_bump_increments
    (ev : ApiEventInfo) (ttl : Option Int) (nows : List Int) :
    (EventEntry.new ev ttl).version = 0 ∧
    (∀ (e : EventEntry) (now : Int), (e.bump now).version = e.version + 1) ∧
    (nows.foldl (fun e now => EventEntry.bump now e)
        (EventEntry.new ev ttl)).version = nows.length := by
  refine ⟨rfl, fun e now => rfl, ?_⟩
  rw [bump_foldl_version]
  simp [EventEntry.new]

/-- C10: `bump` modifies only the version (incremented by 1) and the
payload's `last_edit_unix` (set to the clock reading); every other field of
the entry is unchanged. -/
theorem claim_C10_bump_frame (e : EventEntry) (now : Int) :
    (e.bump now).version = e.version + 1 ∧
    (e.bump now).event.last_edit_unix = now ∧
    (e.bump now).event.tokens = e.event.tokens ∧
    (e.bump now).event.data = e.event.data ∧
    (e.bump now).event.questions = e.event.questions ∧
    (e.bump now).event.state = e.event.state ∧
    (e.bump now).event.deleted = e.event.deleted ∧
    (e.bump now).event.create_time_unix = e.event.create_time_unix ∧
    (e.bump now).event.delete_time_unix = e.event.delete_time_unix ∧
    (e.bump now).event.premium_order = e.event.premium_order ∧
    (e.bump now).ttl = e.ttl := by
  simp [EventEntry.bump]

/-- C2: `put` maps an underlying failure to `Concurrency` exactly when it is
a conditional-check-failed service rejection; every other underlying failure
is wrapped whole (cause preserved) as the transport error `DynamoPut`. -/
theorem claim_C2_error_filtering (e : SdkPutError) :
    (filterPutError e = Error.Concurrency ↔ e.isConditionalCheckFailed = true) ∧
    (e.isConditionalCheckFailed = false → filterPutError e = Error.DynamoPut e) := by
  cases e with
  | ServiceError err raw =>
    obtain ⟨kind⟩ := err
    cases kind <;> simp [filterPutError, SdkPutError.isConditionalCheckFailed]
  | ConstructionFailure s =>
    simp [filterPutError, SdkPutError.isConditionalCheckFailed]
  | TimeoutError s =>
    simp [filterPutError, SdkPutError.isConditionalCheckFailed]
  | DispatchFailure s =>
    simp [filterPutError, SdkPutError.isConditionalCheckFailed]
  | ResponseError s =>
    simp [filterPutError, SdkPutError.isConditionalCheckFailed]

theorem claim_C2_error_filtering_witness :
    (SdkPutError.TimeoutError "t").isConditionalCheckFailed = false ∧
    filterPutError (SdkPutError.TimeoutError "t") =
      Error.DynamoPut (SdkPutError.TimeoutError "t") :=
  ⟨rfl, (claim_C2_error_filtering (SdkPutError.TimeoutError "t")).2 rfl⟩

/-- C7 (amended): the AttributeMap produced by the codec always carries the
`format` tag holding the fixed current format value, but the item written by
`put` in `dynamo.rs` contains only `key`, `v` and `value` — no `format`
field is attached to the stored item. -/
theorem claim_C7_format_tag (x : EventEntry) (toJson : EventInfo → String)
    (e : DynamoEventEntry) :
    (eventEntryToAttributeMap x).find "format" =
      some (AttributeValue.N (natToString CURRENT_FORMAT)) ∧
    AttributeMap.containsKey (buildPutRequest toJson e).item "format" = false := by
  constructor
  · cases x with
    | mk ev v ttl =>
      cases ttl <;> simp [eventEntryToAttributeMap, AttributeMap.find]
  · by_cases h : e.version > 0 <;>
      simp [buildPutRequest, h, AttributeMap.containsKey, AttributeMap.find]

/-- C7 counterexample: the claim asserts every encoded record produced for
storage carries the `format` tag, including "the item written by put"; the
item `put` assembles for a concrete record has no `format` field. -/
theorem claim_C7_counterexample :
    AttributeMap.containsKey
      (buildPutRequest (fun _ => "x") dynamoTestEntry0).item "format" = false := by
  decide

/-- C1: a version-0 record is written unconditionally (no condition
expression); a record with positive version is written under the condition
`v = :ver` where `:ver` is the decimal text of `version - 1`, and submitting
that request succeeds exactly when an item is stored whose `v` attribute
equals that value. -/
theorem claim_C1_put_write_protocol (toJson : EventInfo → String)
    (event : DynamoEventEntry) :
    (event.version = 0 →
      (buildPutRequest toJson event).condition_expression = none) ∧
    (event.version > 0 →
      (buildPutRequest toJson event).condition_expression = some "v = :ver" ∧
      AttributeMap.find (buildPutRequest toJson event).expression_attribute_values
          ":ver" = some (AttributeValue.N (natToString (event.version - 1))) ∧
      (∀ state : Option AttributeMap,
        (dynamoConditionalPut state (buildPutRequest toJson event)).1 = none ↔
          (∃ item, state = some item ∧
            item.find "v" =
              some (AttributeValue.N (natToString (event.version - 1)))))) := by
  constructor
  · intro h0
    simp [buildPutRequest, h0]
  · intro hpos
    refine ⟨?_, ?_, ?_⟩
    · simp [buildPutRequest, hpos]
    · simp [buildPutRequest, hpos, AttributeMap.find]
    · intro state
      cases state with
      | none =>
        simp [buildPutRequest, hpos, dynamoConditionalPut]
      | some item =>
        cases hfind : item.find "v" with
        | none =>
          simp [buildPutRequest, hpos, dynamoConditionalPut, AttributeMap.find, hfind]
        | some av =>
          cases av with
          | N a =>
            by_cases hbe : a = natToString (event.version - 1) <;>
              simp [buildPutRequest, hpos, dynamoConditionalPut,
                AttributeMap.find, hfind, hbe]
          | S a =>
            simp [buildPutRequest, hpos, dynamoConditionalPut,
              AttributeMap.find, hfind]
          | B a =>
            simp [buildPutRequest, hpos, dynamoConditionalPut,
              AttributeMap.find, hfind]
          | M a =>
            simp [buildPutRequest, hpos, dynamoConditionalPut,
              AttributeMap.find, hfind]
          | L a =>
            simp [buildPutRequest, hpos, dynamoConditionalPut,
              AttributeMap.find, hfind]

theorem claim_C1_put_write_protocol_witness :
    (buildPutRequest (fun _ => "x")
        { event := testEvent1.toEventInfo, version := 2 }).condition_expression =
      some "v = :ver" ∧
    (dynamoConditionalPut none
        (buildPutRequest (fun _ => "x")
          { event := testEvent1.toEventInfo, version := 2 })).1 ≠ none := by
  have h := (claim_C1_put_write_protocol (fun _ => "x")
    { event := testEvent1.toEventInfo, version := 2 }).2 (by decide)
  refine ⟨h.1, fun hnone => ?_⟩
  obtain ⟨item, hitem, _⟩ := (h.2.2 none).mp hnone
  exact Option.noConfusion hitem

/-- C5 (amended): `get` yields `ItemNotFound` when no item is stored,
`DynamoGetItemError` (transport) when the underlying call fails, the typed
error `General "malformed event: v"` when the stored version attribute is
present but not numeric, the typed `ParseInt` error when it is numeric text
that does not parse as a non-negative integer, and the typed
`General "malformed event: value"` error when the payload field is present
but not a string; but when a required field — `v`, or `value` with `v`
intact — is missing entirely, `get` panics (the code indexes the item map)
instead of returning a typed error. -/
theorem claim_C5_get_error_taxonomy (fromJson : String → Except String EventInfo) :
    (∀ e, dynamoGet fromJson (Except.error e) =
        RunResult.fails (Error.DynamoGetItemError e)) ∧
    (dynamoGet fromJson (Except.ok { item := none }) =
      RunResult.fails Error.ItemNotFound) ∧
    (∀ item av, item.find "v" = some av → av.as_n = none →
        dynamoGet fromJson (Except.ok { item := some item }) =
          RunResult.fails (Error.General "malformed event: v")) ∧
    (∀ item s, item.find "v" = some (AttributeValue.N s) → rustParseNat s = none →
        dynamoGet fromJson (Except.ok { item := some item }) =
          RunResult.fails Error.ParseInt) ∧
    (∀ item, item.find "v" = none →
        dynamoGet fromJson (Except.ok { item := some item }) = RunResult.panics) ∧
    (∀ item s n, item.find "v" = some (AttributeValue.N s) →
        rustParseNat s = some n → item.find "value" = none →
        dynamoGet fromJson (Except.ok { item := some item }) = RunResult.panics) ∧
    (∀ item s n sav, item.find "v" = some (AttributeValue.N s) →
        rustParseNat s = some n → item.find "value" = some sav → sav.as_s = none →
        dynamoGet fromJson (Except.ok { item := some item }) =
          RunResult.fails (Error.General "malformed event: value")) := by
  refine ⟨fun e => rfl, rfl, ?_, ?_, ?_, ?_, ?_⟩
  · intro item av hf hn
    simp [dynamoGet, hf, hn]
  · intro item s hf hp
    simp [dynamoGet, hf, AttributeValue.as_n, hp]
  · intro item hf
    simp [dynamoGet, hf]
  · intro item s n hf hp hval
    simp [dynamoGet, hf, AttributeValue.as_n, hp, hval]
  · intro item s n sav hf hp hval hs
    simp [dynamoGet, hf, AttributeValue.as_n, hp, hval, hs]

theorem claim_C5_get_error_taxonomy_witness :
    (dynamoGet (fun _ => Except.error "e")
      (Except.ok { item := some [("v", AttributeValue.S "x")] }) =
      RunResult.fails (Error.General "malformed event: v")) ∧
    (dynamoGet (fun _ => Except.error "e")
      (Except.ok { item := some [("v", AttributeValue.N "3")] }) =
      RunResult.panics) ∧
    (dynamoGet (fun _ => Except.error "e")
      (Except.ok
        { item :=
            some [("v", AttributeValue.N "3"), ("value", AttributeValue.N "9")] }) =
      RunResult.fails (Error.General "malformed event: value")) :=
  ⟨(claim_C5_get_error_taxonomy (fun _ => Except.error "e")).2.2.1
    [("v", AttributeValue.S "x")] (AttributeValue.S "x") rfl rfl,
   (claim_C5_get_error_taxonomy (fun _ => Except.error "e")).2.2.2.2.2.1
    [("v", AttributeValue.N "3")] "3" 3 rfl rfl rfl,
   (claim_C5_get_error_taxonomy (fun _ => Except.error "e")).2.2.2.2.2.2
    [("v", AttributeValue.N "3"), ("value", AttributeValue.N "9")] "3" 3
    (AttributeValue.N "9") rfl rfl rfl rfl⟩

/-- C5 counterexample: the claim says a stored item with missing required
fields makes `get` fail with a typed error, "not a panic"; on an item that
has no `v` attribute at all, `get` panics. -/
theorem claim_C5_counterexample :
    dynamoGet (fun _ => Except.error "e")
      (Except.ok { item := some [("key", AttributeValue.S "k")] }) =
      RunResult.panics := by
  decide

/-- C6 (amended): the version and ttl are serialized as canonical decimal
text, and a stored `v` that fails to parse raises the typed `ParseInt`
error; but a stored `ttl` that is missing, non-numeric, or unparsable is
silently decoded as `none` (the decode result's ttl is always whatever the
`as_n`/parse chain yields, never an error). -/
theorem claim_C6_numeric_serialization (x : EventEntry) (t : Int)
    (m : AttributeMap) (s : String) :
    ((eventEntryToAttributeMap x).find "v" =
      some (AttributeValue.N (natToString x.version))) ∧
    (x.ttl = some t →
      (eventEntryToAttributeMap x).find "ttl" =
        some (AttributeValue.N (intToString t))) ∧
    (m.find "v" = some (AttributeValue.N s) → rustParseNat s = none →
      eventEntryTryFromAttributeMap m = RunResult.fails Error.ParseInt) ∧
    (∀ entry, eventEntryTryFromAttributeMap m = RunResult.ok entry →
      entry.ttl = ((m.find "ttl").bind AttributeValue.as_n).bind rustParseInt) := by
  refine ⟨?_, ?_, ?_, ?_⟩
  · cases hx : x.ttl <;>
      simp [eventEntryToAttributeMap, AttributeMap.find, hx]
  · intro hx
    simp [eventEntryToAttributeMap, AttributeMap.find, hx]
  · intro hf hp
    simp [eventEntryTryFromAttributeMap, hf, AttributeValue.as_n, hp]
  · intro entry h
    simp only [eventEntryTryFromAttributeMap] at h
    cases hv : m.find "v" with
    | none => simp only [hv] at h; exact RunResult.noConfusion h
    | some vav =>
      simp only [hv] at h
      cases hn : vav.as_n with
      | none => simp only [hn] at h; exact RunResult.noConfusion h
      | some vs =>
        simp only [hn] at h
        cases hp : rustParseNat vs with
        | none => simp only [hp] at h; exact RunResult.noConfusion h
        | some version =>
          simp only [hp] at h
          cases he : m.find "event" with
          | none => simp only [he] at h; exact RunResult.noConfusion h
          | some eav =>
            simp only [he] at h
            cases hm : eav.as_m with
            | none => simp only [hm] at h; exact RunResult.noConfusion h
            | some em =>
              simp only [hm] at h
              cases hae : attributes_to_event em with
              | error err => simp only [hae] at h; exact RunResult.noConfusion h
              | ok eventv =>
                simp only [hae] at h
                cases h
                rfl

theorem claim_C6_numeric_serialization_witness :
    ((eventEntryToAttributeMap testEntry2).find "ttl" =
      some (AttributeValue.N (intToString 12345))) ∧
    eventEntryTryFromAttributeMap [("v", AttributeValue.N "abc")] =
      RunResult.fails Error.ParseInt :=
  ⟨(claim_C6_numeric_serialization testEntry2 12345
      [("v", AttributeValue.N "abc")] "abc").2.1 rfl,
   (claim_C6_numeric_serialization testEntry2 12345
      [("v", AttributeValue.N "abc")] "abc").2.2.1 rfl rfl⟩

/-- C6 counterexample: the claim says a numeric field that fails to parse on
decode raises a malformed-field error rather than being silently replaced by
a default; a stored item whose `ttl` is the unparsable text `"abc"` decodes
successfully, with the ttl silently replaced by `none`. -/
theorem claim_C6_counterexample :
    eventEntryTryFromAttributeMap
      [("v", AttributeValue.N "0"),
       ("event", AttributeValue.M (event_to_attributes testEvent1)),
       ("ttl", AttributeValue.N "abc")] =
      RunResult.ok { event := testEvent1, version := 0, ttl := none } := by
  decide

/-- C8 (amended): decode never inspects the `format` tag: dropping it from
an encoded record, or replacing it by an arbitrary attribute value, still
decodes to the original record rather than being rejected. -/
theorem claim_C8_format_not_checked (x : EventEntry) (fmt : AttributeValue) :
    eventEntryTryFromAttributeMap ((eventEntryToAttributeMap x).removeKey "format") =
      RunResult.ok x ∧
    eventEntryTryFromAttributeMap
      (("format", fmt) :: (eventEntryToAttributeMap x).removeKey "format") =
      RunResult.ok x := by
  cases x with
  | mk ev v ttl =>
    cases ttl <;>
      (constructor <;>
        simp [eventEntryToAttributeMap, AttributeMap.removeKey, List.filter,
          eventEntryTryFromAttributeMap, AttributeMap.find,
          AttributeValue.as_n, AttributeValue.as_m,
          rustParseNat_natToString, rustParseInt_intToString, event_roundtrip])

/-- C8 counterexample: the claim says a stored attribute map whose format
tag differs from the current format value (here `"999"` instead of `"1"`)
is rejected by decode; instead it decodes successfully. -/
theorem claim_C8_counterexample :
    eventEntryTryFromAttributeMap
      [("format", AttributeValue.N "999"),
       ("v", AttributeValue.N "2"),
       ("event", AttributeValue.M (event_to_attributes testEvent1))] =
      RunResult.ok { event := testEvent1, version := 2, ttl := none } := by
  decide

theorem buildPutRequest_item_v (toJson : EventInfo → String) (e : DynamoEventEntry) :
    (buildPutRequest toJson e).item.find "v" =
      some (AttributeValue.N (natToString e.version)) := by
  by_cases h : e.version > 0 <;> simp [buildPutRequest, h, AttributeMap.find]

theorem storedVersion_put_item (toJson : EventInfo → String) (e : DynamoEventEntry) :
    storedVersion (some (buildPutRequest toJson e).item) = some e.version := by
  simp [storedVersion, buildPutRequest_item_v, AttributeValue.as_n,
    rustParseNat_natToString]

theorem wellFormed_put_item (toJson : EventInfo → String) (e : DynamoEventEntry) :
    WellFormedState (some (buildPutRequest toJson e).item) := by
  intro item h
  cases h
  exact ⟨e.version, buildPutRequest_item_v toJson e⟩

/-- C4 (amended): over any store state reachable by the code's own writes
(the stored item, if any, records its version canonically): a `put` with
version 0 always succeeds and leaves the stored version at 0 — even when a
newer version was stored, the known first-write race window; a `put` with
positive version succeeds exactly when the stored version equals
`version - 1`, advancing the stored version by exactly 1 to `version`; a
`put` presenting a stale previous version fails with `Concurrency` and
leaves the state (hence the stored version) unchanged; and the resulting
state is again reachable-shaped. -/
theorem claim_C4_version_state_machine (toJson : EventInfo → String)
    (s : Option AttributeMap) (e : DynamoEventEntry)
    (hw : WellFormedState s) :
    (e.version = 0 →
      (putOp toJson s e).1 = Except.ok () ∧
      storedVersion (putOp toJson s e).2 = some 0) ∧
    (e.version > 0 →
      (storedVersion s = some (e.version - 1) →
        (putOp toJson s e).1 = Except.ok () ∧
        storedVersion (putOp toJson s e).2 = some e.version) ∧
      (storedVersion s ≠ some (e.version - 1) →
        (putOp toJson s e).1 = Except.error Error.Concurrency ∧
        (putOp toJson s e).2 = s)) ∧
    WellFormedState (putOp toJson s e).2 := by
  by_cases hv : e.version = 0
  · have hrun : putOp toJson s e =
        (Except.ok (), some (buildPutRequest toJson e).item) := by
      simp [putOp, buildPutRequest, hv, dynamoConditionalPut]
    refine ⟨fun _ => ?_, fun hpos => absurd hv (by omega), ?_⟩
    · rw [hrun]
      exact ⟨rfl, by rw [show (Except.ok (), some (buildPutRequest toJson e).item).2 =
        some (buildPutRequest toJson e).item from rfl, storedVersion_put_item, hv]⟩
    · rw [hrun]
      exact wellFormed_put_item toJson e
  · have hpos : e.version > 0 := Nat.pos_of_ne_zero hv
    have hreq : (buildPutRequest toJson e).condition_expression = some "v = :ver" := by
      simp [buildPutRequest, hpos]
    have hexp : AttributeMap.find
        (buildPutRequest toJson e).expression_attribute_values ":ver" =
        some (AttributeValue.N (natToString (e.version - 1))) := by
      simp [buildPutRequest, hpos, AttributeMap.find]
    cases s with
    | none =>
      have hrun : putOp toJson none e = (Except.error Error.Concurrency, none) := by
        simp [putOp, dynamoConditionalPut, hreq, hexp, filterPutError]
      refine ⟨fun h0 => absurd h0 hv, fun _ => ⟨fun hst => ?_, fun _ => ?_⟩, ?_⟩
      · simp [storedVersion] at hst
      · rw [hrun]; exact ⟨rfl, rfl⟩
      · rw [hrun]; intro item h; exact Option.noConfusion h
    | some item =>
      obtain ⟨n, hvn⟩ := hw item rfl
      have hsv : storedVersion (some item) = some n := by
        simp [storedVersion, hvn, AttributeValue.as_n, rustParseNat_natToString]
      by_cases hn : n = e.version - 1
      · have hbeq : (natToString n == natToString (e.version - 1)) = true := by
          rw [hn]; exact beq_self_eq_true _
        have hrun : putOp toJson (some item) e =
            (Except.ok (), some (buildPutRequest toJson e).item) := by
          simp [putOp, dynamoConditionalPut, hreq, hexp, hvn, hbeq]
        refine ⟨fun h0 => absurd h0 hv,
          fun _ => ⟨fun _ => ?_, fun hne => absurd (by rw [hsv, hn]) hne⟩, ?_⟩
        · rw [hrun]
          exact ⟨rfl, by rw [show (Except.ok (),
            some (buildPutRequest toJson e).item).2 =
            some (buildPutRequest toJson e).item from rfl, storedVersion_put_item]⟩
        · rw [hrun]
          exact wellFormed_put_item toJson e
      · have hne' : natToString n ≠ natToString (e.version - 1) :=
          fun hh => hn (natToString_inj hh)
        have hbeq : (natToString n == natToString (e.version - 1)) = false :=
          beq_eq_false_iff_ne.mpr hne'
        have hrun : putOp toJson (some item) e =
            (Except.error Error.Concurrency, some item) := by
          simp [putOp, dynamoConditionalPut, hreq, hexp, hvn, hbeq, filterPutError]
        refine ⟨fun h0 => absurd h0 hv, fun _ => ⟨fun hst => ?_, fun _ => ?_⟩, ?_⟩
        · rw [hsv] at hst
          exact absurd (Option.some.injEq _ _ ▸ hst) hn
        · rw [hrun]; exact ⟨rfl, rfl⟩
        · rw [hrun]
          intro item' h
          cases h
          exact ⟨n, hvn⟩

theorem claim_C4_version_state_machine_witness :
    (putOp (fun _ => "x") none dynamoTestEntry0).1 = Except.ok () ∧
    storedVersion (putOp (fun _ => "x") none dynamoTestEntry0).2 = some 0 :=
  (claim_C4_version_state_machine (fun _ => "x") none dynamoTestEntry0
    (fun _ h => Option.noConfusion h)).1 rfl

/-- C4 counterexample: starting from the state left by a successful
version-0 `put` (stored version 0), a second version-0 `put` also succeeds
and leaves the stored version at 0 — a successful put that does not
increase the stored version by exactly 1 and reuses version 0, contradicting
the unqualified state-machine claim. -/
theorem claim_C4_counterexample :
    (putOp (fun _ => "x")
        (some (buildPutRequest (fun _ => "x") dynamoTestEntry0).item)
        dynamoTestEntry0).1 = Except.ok () ∧
    storedVersion
        (some (buildPutRequest (fun _ => "x") dynamoTestEntry0).item) = some 0 ∧
    storedVersion
        (putOp (fun _ => "x")
          (some (buildPutRequest (fun _ => "x") dynamoTestEntry0).item)
          dynamoTestEntry0).2 = some 0 := by
  decide

end LiveAsk
